import Mathlib

/-!
Verification of the DxcArgsFileSystem virtual file system adapter
(tools/clang/tools/dxcompiler/dxcfilesystem.cpp).

The embedding models wide strings as lists of UTF-16 code units (`WStr`),
the word-sized `HANDLE` as a natural number, and the adapter object
`DxcArgsFileSystemImpl` as an explicit state record.  Win32 error codes and
file-attribute constants use their numeric Windows values.
-/

namespace DxcFS

/-- A wide (UTF-16) string, as a list of code units.  C strings are
NUL-terminated; reading one position past the end of the list models reading
the terminator (code unit 0). -/
abbrev WStr := List Nat

/-- Convert a Lean string literal to its code-unit list (all paths used here
are ASCII, so code points and UTF-16 code units agree). -/
def wstr (s : String) : WStr := s.data.map Char.toNat

/-- C-string character access: positions past the end read the terminator. -/
def cAt (s : WStr) (i : Nat) : Nat := s.getD i 0

def dotChar : Nat := 46      -- '.'
def sepFwd : Nat := 47       -- '/'
def sepBack : Nat := 92      -- backslash
def colonChar : Nat := 58    -- ':'

/-- A path-separator code unit (forward or backward slash). -/
def isSep (c : Nat) : Bool := c == sepBack || c == sepFwd

/-! ## Handle codec

`struct HandleBits { unsigned Offset : 8; unsigned Length : 8; unsigned Kind : 4; }`
packed into the low bits of a word-sized `HANDLE` (fields allocated from the
least significant bit).  The bitfield constructors truncate each argument to
its field width. -/

/-- `HandleKind`: Special = 0, File = 1, FileDir = 2, SearchDir = 3. -/
def kindSpecial : Nat := 0
def kindFile : Nat := 1
def kindFileDir : Nat := 2
def kindSearchDir : Nat := 3

/-- `SpecialValue`: Unknown = 0, StdOut = 1, StdErr = 2, Source = 3, Output = 4. -/
def specialUnknown : Nat := 0
def specialStdOut : Nat := 1
def specialStdErr : Nat := 2
def specialOutput : Nat := 4

/-- Build a `DxcArgsHandle` from a (kind, offset, length) triple, mirroring the
bitfield layout `Offset:8 | Length:8 | Kind:4`: each field truncates its
argument to its declared width. -/
def encodeHandle (kind offset length : Nat) : Nat :=
  offset % 256 + (length % 256) * 256 + (kind % 16) * 65536

/-- `Bits.Offset` of a handle word. -/
def handleOffset (h : Nat) : Nat := h % 256

/-- `Bits.Length` of a handle word. -/
def handleLength (h : Nat) : Nat := h / 256 % 256

/-- `Bits.Kind` of a handle word. -/
def handleKind (h : Nat) : Nat := h / 65536 % 16

/-- `decode`: read the (kind, offset, length) triple back out of a handle. -/
def decodeHandle (h : Nat) : Nat × Nat × Nat :=
  (handleKind h, handleOffset h, handleLength h)

/-- `UnknownHandle = DxcArgsHandle(SpecialValue::Unknown)` (word value 0). -/
def unknownHandle : Nat := encodeHandle kindSpecial specialUnknown 0

/-- `StdOutHandle = DxcArgsHandle(SpecialValue::StdOut)`. -/
def stdOutHandle : Nat := encodeHandle kindSpecial specialStdOut 0

/-- `StdErrHandle = DxcArgsHandle(SpecialValue::StdErr)`. -/
def stdErrHandle : Nat := encodeHandle kindSpecial specialStdErr 0

/-- `OutputHandle = DxcArgsHandle(SpecialValue::Output)`. -/
def outputHandle : Nat := encodeHandle kindSpecial specialOutput 0

/-- `INVALID_HANDLE_VALUE = (HANDLE)-1` on a 64-bit platform. -/
def INVALID_HANDLE_VALUE : Nat := 2 ^ 64 - 1

/-- `static const size_t MaxIncludedFiles = 1000`. -/
def MaxIncludedFiles : Nat := 1000

-- Win32 error codes and attribute constants, by their numeric values.
def ERROR_SUCCESS : Nat := 0
def ERROR_INVALID_HANDLE : Nat := 6
def ERROR_OUT_OF_STRUCTURES : Nat := 84
def ERROR_UNHANDLED_EXCEPTION : Nat := 574
def ERROR_NOT_CAPABLE : Nat := 775
def ERROR_NOT_FOUND : Nat := 1168
def FILE_ATTRIBUTE_DIRECTORY : Nat := 16
def FILE_ATTRIBUTE_NORMAL : Nat := 128
def INVALID_FILE_ATTRIBUTES : Nat := 2 ^ 32 - 1

/-! ## Path normalizer -/

/-- `IsAbsoluteOrCurDirRelativeW`: a path is "rooted" if it is `.` or starts
with `./` or `.\`, has a disk-designator-then-backslash prefix, or starts with
a double backslash (UNC name).  Null/empty input is not rooted. -/
def IsAbsoluteOrCurDirRelativeW (path : WStr) : Bool :=
  if path = [] then false
  else if cAt path 0 == dotChar then
    -- current dir-relative path: "." or "./..." or ".\..."
    cAt path 1 == 0 || cAt path 1 == sepFwd || cAt path 1 == sepBack
  else if cAt path 1 == colonChar && cAt path 2 == sepBack then true
  else if cAt path 0 == sepBack then cAt path 1 == sepBack
  else false

/-- `MakeAbsoluteOrCurDirRelativeW`: leave a rooted path alone, otherwise
prefix `./`. -/
def MakeAbsoluteOrCurDirRelativeW (path : WStr) : WStr :=
  if IsAbsoluteOrCurDirRelativeW path then path else dotChar :: sepFwd :: path

/-! ## Adapter state

`DxcArgsFileSystemImpl`'s members, with streams modelled by their byte
contents.  The include handler (`IDxcIncludeHandler`) is a pure oracle: for a
path it either fails (`FAILED(hr)` from `LoadSource`), reports no such file
(a null blob), or yields the file's bytes.  The UTF-8 re-encoding and the
read-only stream wrapper created over a returned blob are assumed to succeed
and are represented by the bytes themselves. -/

inductive LoadResult where
  | failed
  | noBlob
  | blob (bytes : List Nat)

/-- `struct IncludedFile { Blob; BlobStream; Name; }` — the stream is the blob
read back, so only the name and the bytes are modelled. -/
structure IncludedFile where
  name : WStr
  blob : List Nat
deriving DecidableEq

structure FSState where
  /-- `m_pSourceName` after the constructor normalized it. -/
  sourceName : WStr
  /-- `m_includeLoader` (none when no handler was supplied). -/
  includeLoader : Option (WStr → LoadResult)
  /-- `m_includedFiles`. -/
  includedFiles : List IncludedFile
  /-- `m_searchEntries`. -/
  searchEntries : List WStr
  /-- `m_pOutputStreamName` (already normalized when registered). -/
  outputStreamName : Option WStr
  /-- `m_pOutputStream`, as the bytes of the registered sink. -/
  outputBuf : Option (List Nat)
  /-- `m_bDisplayIncludeProcess`. -/
  displayIncludeProcess : Bool
  /-- The verbose-include trace lines written to `m_pStdErrStream`, each
  abstracted to the (file name, prior stack depth) pair the line prints. -/
  stdErrTrace : List (WStr × Nat)
  /-- Instrumentation: the log of arguments passed to `LoadSource`. -/
  loaderCalls : List WStr

/-- The constructor `DxcArgsFileSystemImpl(pSource, pSourceName, pHandler)`:
normalize the source name and push the primary source as entry 0. -/
def freshState (sourceName : WStr) (sourceBytes : List Nat)
    (loader : Option (WStr → LoadResult)) : FSState :=
  let n := MakeAbsoluteOrCurDirRelativeW sourceName
  { sourceName := n
    includeLoader := loader
    includedFiles := [⟨n, sourceBytes⟩]
    searchEntries := []
    outputStreamName := none
    outputBuf := none
    displayIncludeProcess := false
    stdErrTrace := []
    loaderCalls := [] }

/-! ## Linear scans

Each `for`-loop scan returning the first index whose element satisfies a test
is modelled by `findMatchIdx`. -/

def findMatchIdx {α : Type} (p : α → Bool) : List α → Option Nat
  | [] => none
  | x :: rest => if p x then some 0 else (findMatchIdx p rest).map (· + 1)

/-! ## Directory emulation -/

/-- `IsDirOf(lpDir, dirLen, fileName)` with `dirLen = wcslen(lpDir)`:
`lpDir` is a strict prefix of `fileName` and the prefix boundary is
separator-aligned (either `lpDir` ends in a separator, or the next character
of `fileName` is one). -/
def isDirOf (dir fileName : WStr) : Bool :=
  if fileName.length ≤ dir.length then false
  else if fileName.take dir.length ≠ dir then false
  else if isSep (cAt dir (dir.length - 1)) then true
  else isSep (cAt fileName dir.length)

/-- `IsDirPrefixOrSame`: exact match (`wcscmp`) or `IsDirOf`. -/
def isDirPrefixOrSame (dir path : WStr) : Bool :=
  dir == path || isDirOf dir path

/-- `TryFindDirHandle`: first file entry of which `lpDir` is a directory, then
first search entry equal to it or of which it is a directory; the handle
carries the matched index and the directory length. -/
def tryFindDirHandle (dir : WStr) (s : FSState) : Nat :=
  match findMatchIdx (fun f => isDirOf dir f.name) s.includedFiles with
  | some i => encodeHandle kindFileDir i dir.length
  | none =>
    match findMatchIdx (fun e => isDirPrefixOrSame dir e) s.searchEntries with
    | some i => encodeHandle kindSearchDir i dir.length
    | none => INVALID_HANDLE_VALUE

/-! ## Included-file registry -/

/-- Append a `LoadSource` invocation to the instrumentation log. -/
def logCall (name : WStr) (s : FSState) : FSState :=
  { s with loaderCalls := s.loaderCalls ++ [name] }

/-- `m_includedFiles.emplace_back(name, blob, stream)`. -/
def appendFile (name : WStr) (bytes : List Nat) (s : FSState) : FSState :=
  { s with includedFiles := s.includedFiles ++ [⟨name, bytes⟩] }

/-- The verbose trace `"Opening file [name], stack top [index-1]"` written to
the standard-error stream when `m_bDisplayIncludeProcess` is set. -/
def maybeTrace (name : WStr) (index : Nat) (s : FSState) : FSState :=
  if s.displayIncludeProcess then
    { s with stdErrTrace := s.stdErrTrace ++ [(name, index - 1)] }
  else s

/-- The exact-match (`wcscmp`) scan predicate for a path. -/
def fileNameIs (name : WStr) : IncludedFile → Bool := fun f => f.name == name

/-- `TryFindOrOpen(lpFileName, index)`: exact-match scan, then (with a loader
configured) the capacity check, then `LoadSource`.  Returns the error code,
the index when successful, and the updated state. -/
def tryFindOrOpen (name : WStr) (s : FSState) : Nat × Option Nat × FSState :=
  match findMatchIdx (fileNameIs name) s.includedFiles with
  | some i => (ERROR_SUCCESS, some i, s)
  | none =>
    match s.includeLoader with
    | none => (ERROR_NOT_FOUND, none, s)
    | some load =>
      if s.includedFiles.length = MaxIncludedFiles then
        (ERROR_OUT_OF_STRUCTURES, none, s)
      else
        match load name with
        | .failed => (ERROR_UNHANDLED_EXCEPTION, none, logCall name s)
        | .noBlob => (ERROR_NOT_FOUND, none, logCall name s)
        | .blob bytes =>
          (ERROR_SUCCESS, some s.includedFiles.length,
            maybeTrace name s.includedFiles.length
              (appendFile name bytes (logCall name s)))

/-! ## Facade operations -/

/-- `CreateFileW`: normalize, check the registered output name, try the
directory emulator, then the registry.  On failure `SetLastError(findError)`
is modelled by the middle component. -/
def createFileW (name : WStr) (s : FSState) : Nat × Option Nat × FSState :=
  let n := MakeAbsoluteOrCurDirRelativeW name
  if s.outputStreamName = some n then (outputHandle, none, s)
  else
    let dh := tryFindDirHandle n s
    if dh ≠ INVALID_HANDLE_VALUE then (dh, none, s)
    else
      let r := tryFindOrOpen n s
      if r.1 = ERROR_SUCCESS then (encodeHandle kindFile (r.2.1.getD 0) 0, none, r.2.2)
      else (INVALID_HANDLE_VALUE, some r.1, r.2.2)

/-- `GetFileAttributesW`: normalize, compare against the source name
(length check then `wcsncmp`), then the output name, the directory emulator,
and finally the registry. -/
def getFileAttributesW (name : WStr) (s : FSState) : Nat × Option Nat × FSState :=
  let n := MakeAbsoluteOrCurDirRelativeW name
  if n.length = s.sourceName.length ∧ s.sourceName.take n.length = n.take n.length then
    (FILE_ATTRIBUTE_NORMAL, none, s)
  else if s.outputStreamName = some n then (FILE_ATTRIBUTE_NORMAL, none, s)
  else if tryFindDirHandle n s ≠ INVALID_HANDLE_VALUE then
    (FILE_ATTRIBUTE_DIRECTORY, none, s)
  else
    let r := tryFindOrOpen n s
    if r.1 = ERROR_SUCCESS then (FILE_ATTRIBUTE_NORMAL, none, r.2.2)
    else (INVALID_FILE_ATTRIBUTES, some r.1, r.2.2)

/-- `GetFileInformationByHandle`, reduced to the (attributes, size-low) pair it
fills in: file handles report normal attributes and the blob size, the output
handle reports the sink's size, directory handles report directory attributes,
anything else fails with `ERROR_INVALID_HANDLE` (`none`). -/
def getFileInformationByHandle (h : Nat) (s : FSState) : Option (Nat × Nat) :=
  if handleKind h = kindFile then
    match s.includedFiles.get? (handleOffset h) with
    | some f => some (FILE_ATTRIBUTE_NORMAL, f.blob.length)
    | none => none
  else if h = outputHandle then
    match s.outputBuf with
    | some buf => some (FILE_ATTRIBUTE_NORMAL, buf.length)
    | none => none
  else if handleKind h = kindFileDir ∨ handleKind h = kindSearchDir then
    some (FILE_ATTRIBUTE_DIRECTORY, 0)
  else none

/-- `IsKnownHandle(h) = !DxcArgsHandle(h).IsSpecialUnknown()`, i.e. the word
is nonzero. -/
def isKnownHandle (h : Nat) : Bool := !(h == 0)

/-- `CloseHandle`: a no-op that succeeds on any "known" (nonzero) handle and
fails with `ERROR_INVALID_HANDLE` otherwise. -/
def closeHandle (h : Nat) (s : FSState) : Bool × Option Nat × FSState :=
  if isKnownHandle h then (true, none, s)
  else (false, some ERROR_INVALID_HANDLE, s)

/-- `SetupForCompilerInstance`: reject more than `MaxIncludedFiles` search
entries (the throw leaves the list untouched), otherwise append each entry,
normalized exactly as `MakeAbsoluteOrCurDirRelative` does.  Its `DXASSERT`
requires that it runs on an empty search list. -/
def setupForCompilerInstance (entries : List WStr) (s : FSState) : FSState :=
  if entries.length > MaxIncludedFiles then s
  else { s with searchEntries := s.searchEntries ++ entries.map MakeAbsoluteOrCurDirRelativeW }

/-- `RegisterOutputStream`: record the normalized output name and the sink.
Its `DXASSERT` requires that no output stream is registered yet. -/
def registerOutputStream (name : WStr) (sink : List Nat) (s : FSState) : FSState :=
  { s with outputStreamName := some (MakeAbsoluteOrCurDirRelativeW name)
           outputBuf := some sink }

/-! ## Mutating operations (all `ERROR_NOT_CAPABLE` stubs, except
`resize_file` which returns the success errno 0) -/

def deleteFileW (_name : WStr) (s : FSState) : Bool × Option Nat × FSState :=
  (false, some ERROR_NOT_CAPABLE, s)

def removeDirectoryW (_name : WStr) (s : FSState) : Bool × Option Nat × FSState :=
  (false, some ERROR_NOT_CAPABLE, s)

def createDirectoryW (_name : WStr) (s : FSState) : Bool × Option Nat × FSState :=
  (false, some ERROR_NOT_CAPABLE, s)

def moveFileExW (_oldName _newName : WStr) (_flags : Nat) (s : FSState) :
    Bool × Option Nat × FSState :=
  (false, some ERROR_NOT_CAPABLE, s)

def createHardLinkW (_name _existing : WStr) (s : FSState) :
    Bool × Option Nat × FSState :=
  (false, some ERROR_NOT_CAPABLE, s)

def createSymbolicLinkW (_symlink _target : WStr) (_flags : Nat) (s : FSState) :
    Bool × Option Nat × FSState :=
  (false, some ERROR_NOT_CAPABLE, s)

def setFileTime (_h : Nat) (s : FSState) : Bool × Option Nat × FSState :=
  (false, some ERROR_NOT_CAPABLE, s)

/-- `resize_file(path, size) { return 0; }` — an errno of 0 (success), no
`SetLastError`, no state change. -/
def resize_file (_path : WStr) (_size : Nat) (s : FSState) :
    Nat × Option Nat × FSState :=
  (0, none, s)

def createFileMappingW (_h : Nat) (_protect _hi _lo : Nat) (s : FSState) :
    Nat × Option Nat × FSState :=
  (INVALID_HANDLE_VALUE, some ERROR_NOT_CAPABLE, s)

/-- `MapViewOfFile` returns `nullptr` (`none`). -/
def mapViewOfFile (_h : Nat) (_access _hi _lo _count : Nat) (s : FSState) :
    Option Nat × Option Nat × FSState :=
  (none, some ERROR_NOT_CAPABLE, s)

def unmapViewOfFile (_addr : Nat) (s : FSState) : Bool × Option Nat × FSState :=
  (false, some ERROR_NOT_CAPABLE, s)

/-! ## CRT descriptor mapping -/

/-- Truncation of a word to a signed 32-bit `int`. -/
def toInt32 (n : Nat) : Int := (n + 2 ^ 31) % 2 ^ 32 - 2 ^ 31

/-- `HandleFromFD`: descriptors 1 and 2 alias the standard-stream sentinels;
any other descriptor is cast through `uintptr_t` to a handle word. -/
def handleFromFD (fd : Int) : Nat :=
  if fd = 1 then stdOutHandle
  else if fd = 2 then stdErrHandle
  else ((fd % 2 ^ 64).toNat)

/-- `open_osfhandle`: the standard sentinels map to descriptors 1 and 2, any
other handle is cast to `int`. -/
def open_osfhandle (h : Nat) : Int :=
  if h = stdOutHandle then 1
  else if h = stdErrHandle then 2
  else toInt32 h

/-- `get_osfhandle(fd) = (intptr_t)HandleFromFD(fd)`. -/
def get_osfhandle (fd : Int) : Nat := handleFromFD fd

/-! ## Basic lemmas about the helpers -/

@[simp] theorem logCall_includedFiles (n : WStr) (s : FSState) :
    (logCall n s).includedFiles = s.includedFiles := rfl

@[simp] theorem logCall_includeLoader (n : WStr) (s : FSState) :
    (logCall n s).includeLoader = s.includeLoader := rfl

@[simp] theorem logCall_searchEntries (n : WStr) (s : FSState) :
    (logCall n s).searchEntries = s.searchEntries := rfl

@[simp] theorem logCall_sourceName (n : WStr) (s : FSState) :
    (logCall n s).sourceName = s.sourceName := rfl

@[simp] theorem logCall_outputStreamName (n : WStr) (s : FSState) :
    (logCall n s).outputStreamName = s.outputStreamName := rfl

@[simp] theorem logCall_outputBuf (n : WStr) (s : FSState) :
    (logCall n s).outputBuf = s.outputBuf := rfl

@[simp] theorem logCall_display (n : WStr) (s : FSState) :
    (logCall n s).displayIncludeProcess = s.displayIncludeProcess := rfl

@[simp] theorem logCall_loaderCalls (n : WStr) (s : FSState) :
    (logCall n s).loaderCalls = s.loaderCalls ++ [n] := rfl

@[simp] theorem appendFile_includedFiles (n : WStr) (b : List Nat) (s : FSState) :
    (appendFile n b s).includedFiles = s.includedFiles ++ [⟨n, b⟩] := rfl

@[simp] theorem appendFile_includeLoader (n : WStr) (b : List Nat) (s : FSState) :
    (appendFile n b s).includeLoader = s.includeLoader := rfl

@[simp] theorem appendFile_searchEntries (n : WStr) (b : List Nat) (s : FSState) :
    (appendFile n b s).searchEntries = s.searchEntries := rfl

@[simp] theorem appendFile_sourceName (n : WStr) (b : List Nat) (s : FSState) :
    (appendFile n b s).sourceName = s.sourceName := rfl

@[simp] theorem appendFile_outputStreamName (n : WStr) (b : List Nat) (s : FSState) :
    (appendFile n b s).outputStreamName = s.outputStreamName := rfl

@[simp] theorem appendFile_outputBuf (n : WStr) (b : List Nat) (s : FSState) :
    (appendFile n b s).outputBuf = s.outputBuf := rfl

@[simp] theorem appendFile_display (n : WStr) (b : List Nat) (s : FSState) :
    (appendFile n b s).displayIncludeProcess = s.displayIncludeProcess := rfl

@[simp] theorem appendFile_loaderCalls (n : WStr) (b : List Nat) (s : FSState) :
    (appendFile n b s).loaderCalls = s.loaderCalls := rfl

@[simp] theorem maybeTrace_includedFiles (n : WStr) (i : Nat) (s : FSState) :
    (maybeTrace n i s).includedFiles = s.includedFiles := by
  unfold maybeTrace; split <;> rfl

@[simp] theorem maybeTrace_includeLoader (n : WStr) (i : Nat) (s : FSState) :
    (maybeTrace n i s).includeLoader = s.includeLoader := by
  unfold maybeTrace; split <;> rfl

@[simp] theorem maybeTrace_searchEntries (n : WStr) (i : Nat) (s : FSState) :
    (maybeTrace n i s).searchEntries = s.searchEntries := by
  unfold maybeTrace; split <;> rfl

@[simp] theorem maybeTrace_sourceName (n : WStr) (i : Nat) (s : FSState) :
    (maybeTrace n i s).sourceName = s.sourceName := by
  unfold maybeTrace; split <;> rfl

@[simp] theorem maybeTrace_outputStreamName (n : WStr) (i : Nat) (s : FSState) :
    (maybeTrace n i s).outputStreamName = s.outputStreamName := by
  unfold maybeTrace; split <;> rfl

@[simp] theorem maybeTrace_outputBuf (n : WStr) (i : Nat) (s : FSState) :
    (maybeTrace n i s).outputBuf = s.outputBuf := by
  unfold maybeTrace; split <;> rfl

@[simp] theorem maybeTrace_display (n : WStr) (i : Nat) (s : FSState) :
    (maybeTrace n i s).displayIncludeProcess = s.displayIncludeProcess := by
  unfold maybeTrace; split <;> rfl

@[simp] theorem maybeTrace_loaderCalls (n : WStr) (i : Nat) (s : FSState) :
    (maybeTrace n i s).loaderCalls = s.loaderCalls := by
  unfold maybeTrace; split <;> rfl

/-! ## Lemmas about the linear scan -/

theorem findMatchIdx_none_iff {α : Type} (p : α → Bool) (l : List α) :
    findMatchIdx p l = none ↔ ∀ x ∈ l, p x = false := by
  induction l with
  | nil => simp [findMatchIdx]
  | cons x rest ih =>
    cases hpx : p x with
    | true => simp [findMatchIdx, hpx]
    | false =>
      simp only [findMatchIdx, hpx, Bool.false_eq_true, if_false,
        Option.map_eq_none', ih, List.mem_cons]
      constructor
      · rintro hall y (rfl | hy)
        · exact hpx
        · exact hall y hy
      · intro hall y hy
        exact hall y (Or.inr hy)

theorem findMatchIdx_cons_pos {α : Type} (p : α → Bool) (x : α) (l : List α)
    (h : p x = true) : findMatchIdx p (x :: l) = some 0 := by
  simp [findMatchIdx, h]

theorem findMatchIdx_cons_neg {α : Type} (p : α → Bool) (x : α) (l : List α)
    (h : p x = false) :
    findMatchIdx p (x :: l) = (findMatchIdx p l).map (· + 1) := by
  simp [findMatchIdx, h]

theorem findMatchIdx_append {α : Type} (p : α → Bool) (l t : List α) :
    findMatchIdx p (l ++ t) =
      match findMatchIdx p l with
      | some i => some i
      | none => (findMatchIdx p t).map (· + l.length) := by
  induction l with
  | nil => cases h : findMatchIdx p t <;> simp [findMatchIdx, h]
  | cons x rest ih =>
    cases hpx : p x with
    | true =>
      rw [List.cons_append, findMatchIdx_cons_pos p x _ hpx,
        findMatchIdx_cons_pos p x rest hpx]
    | false =>
      rw [List.cons_append, findMatchIdx_cons_neg p x _ hpx,
        findMatchIdx_cons_neg p x rest hpx, ih]
      cases hr : findMatchIdx p rest
      · simp only [hr]
        cases ht : findMatchIdx p t
        · simp [ht]
        · simp only [ht, Option.map_some', Option.map_none', List.length_cons]
          exact congrArg some (by omega)
      · simp [hr]

theorem findMatchIdx_append_hit {α : Type} (p : α → Bool) (l : List α) (x : α)
    (hl : findMatchIdx p l = none) (hx : p x = true) :
    findMatchIdx p (l ++ [x]) = some l.length := by
  rw [findMatchIdx_append, hl]
  simp [findMatchIdx, hx]

theorem findMatchIdx_append_miss {α : Type} (p : α → Bool) (l : List α) (x : α)
    (hl : findMatchIdx p l = none) (hx : p x = false) :
    findMatchIdx p (l ++ [x]) = none := by
  rw [findMatchIdx_append, hl]
  simp [findMatchIdx, hx]

theorem findMatchIdx_append_left {α : Type} (p : α → Bool) (l t : List α) (i : Nat)
    (hl : findMatchIdx p l = some i) :
    findMatchIdx p (l ++ t) = some i := by
  rw [findMatchIdx_append, hl]

/-! ## Case analysis for `tryFindOrOpen` -/

/-- Every outcome of `TryFindOrOpen`: cache hit, no loader, registry full,
loader failure, loader "no such file", or a successful load that appends a
new entry. -/
theorem tryFindOrOpen_cases (q : WStr) (s : FSState) :
    (∃ i, findMatchIdx (fileNameIs q) s.includedFiles = some i ∧
       tryFindOrOpen q s = (ERROR_SUCCESS, some i, s))
  ∨ (findMatchIdx (fileNameIs q) s.includedFiles = none ∧
       s.includeLoader = none ∧
       tryFindOrOpen q s = (ERROR_NOT_FOUND, none, s))
  ∨ (findMatchIdx (fileNameIs q) s.includedFiles = none ∧
       (∃ load, s.includeLoader = some load) ∧
       s.includedFiles.length = MaxIncludedFiles ∧
       tryFindOrOpen q s = (ERROR_OUT_OF_STRUCTURES, none, s))
  ∨ (∃ load, findMatchIdx (fileNameIs q) s.includedFiles = none ∧
       s.includeLoader = some load ∧
       s.includedFiles.length ≠ MaxIncludedFiles ∧
       ((load q = .failed ∧
           tryFindOrOpen q s = (ERROR_UNHANDLED_EXCEPTION, none, logCall q s))
        ∨ (load q = .noBlob ∧
           tryFindOrOpen q s = (ERROR_NOT_FOUND, none, logCall q s))
        ∨ (∃ b, load q = .blob b ∧
           tryFindOrOpen q s = (ERROR_SUCCESS, some s.includedFiles.length,
             maybeTrace q s.includedFiles.length
               (appendFile q b (logCall q s)))))) := by
  cases hf : findMatchIdx (fileNameIs q) s.includedFiles with
  | some i =>
    exact Or.inl ⟨i, rfl, by simp [tryFindOrOpen, hf]⟩
  | none =>
    cases hl : s.includeLoader with
    | none => exact Or.inr (Or.inl ⟨rfl, rfl, by simp [tryFindOrOpen, hf, hl]⟩)
    | some load =>
      by_cases hcap : s.includedFiles.length = MaxIncludedFiles
      · exact Or.inr (Or.inr (Or.inl ⟨rfl, ⟨load, rfl⟩, hcap,
          by simp [tryFindOrOpen, hf, hl, hcap]⟩))
      · refine Or.inr (Or.inr (Or.inr ⟨load, rfl, rfl, hcap, ?_⟩))
        cases hq : load q with
        | failed => exact Or.inl ⟨rfl, by simp [tryFindOrOpen, hf, hl, hcap, hq]⟩
        | noBlob => exact Or.inr (Or.inl ⟨rfl, by simp [tryFindOrOpen, hf, hl, hcap, hq]⟩)
        | blob b => exact Or.inr (Or.inr ⟨b, rfl, by simp [tryFindOrOpen, hf, hl, hcap, hq]⟩)

/-- `TryFindOrOpen` never changes the loader, the search entries, the source
name, the output registration, or the verbosity flag. -/
theorem tryFindOrOpen_preserves (q : WStr) (s : FSState) :
    (tryFindOrOpen q s).2.2.includeLoader = s.includeLoader
    ∧ (tryFindOrOpen q s).2.2.searchEntries = s.searchEntries
    ∧ (tryFindOrOpen q s).2.2.sourceName = s.sourceName
    ∧ (tryFindOrOpen q s).2.2.outputStreamName = s.outputStreamName
    ∧ (tryFindOrOpen q s).2.2.outputBuf = s.outputBuf
    ∧ (tryFindOrOpen q s).2.2.displayIncludeProcess = s.displayIncludeProcess := by
  rcases tryFindOrOpen_cases q s with ⟨i, _, hr⟩ | ⟨_, _, hr⟩ | ⟨_, _, _, hr⟩ |
    ⟨load, _, _, _, ⟨_, hr⟩ | ⟨_, hr⟩ | ⟨b, _, hr⟩⟩ <;> rw [hr] <;> simp

/-- `TryFindOrOpen` only ever appends to the included-file list, appends at
most one entry, and appends only below capacity. -/
theorem tryFindOrOpen_growth (q : WStr) (s : FSState) :
    ∃ t, (tryFindOrOpen q s).2.2.includedFiles = s.includedFiles ++ t
      ∧ t.length ≤ 1
      ∧ (t ≠ [] → s.includedFiles.length ≠ MaxIncludedFiles) := by
  rcases tryFindOrOpen_cases q s with ⟨i, _, hr⟩ | ⟨_, _, hr⟩ | ⟨_, _, _, hr⟩ |
    ⟨load, _, _, hcap, ⟨_, hr⟩ | ⟨_, hr⟩ | ⟨b, _, hr⟩⟩
  · exact ⟨[], by rw [hr]; simp, by simp, by simp⟩
  · exact ⟨[], by rw [hr]; simp, by simp, by simp⟩
  · exact ⟨[], by rw [hr]; simp, by simp, by simp⟩
  · exact ⟨[], by rw [hr]; simp, by simp, by simp⟩
  · exact ⟨[], by rw [hr]; simp, by simp, by simp⟩
  · exact ⟨[⟨q, b⟩], by rw [hr]; simp, by simp, fun _ => hcap⟩

/-- The registry bound is maintained by `TryFindOrOpen`. -/
theorem tryFindOrOpen_length_le (q : WStr) (s : FSState)
    (h : s.includedFiles.length ≤ MaxIncludedFiles) :
    (tryFindOrOpen q s).2.2.includedFiles.length ≤ MaxIncludedFiles := by
  obtain ⟨t, ht, hlen, hcap⟩ := tryFindOrOpen_growth q s
  rw [ht, List.length_append]
  cases t with
  | nil => simpa using h
  | cons a u =>
    have : s.includedFiles.length ≠ MaxIncludedFiles := hcap (by simp)
    have : (a :: u).length ≤ 1 := hlen
    omega

/-! ## Issued handle values -/

/-- The handle word values the adapter can hand out: the standard/output
sentinels, or a bitfield-encoded dynamic handle of File, FileDir or SearchDir
kind. -/
def issuedHandleVal (h : Nat) : Prop :=
  h = stdOutHandle ∨ h = stdErrHandle ∨ h = outputHandle ∨
    ∃ kind i len, (kind = kindFile ∨ kind = kindFileDir ∨ kind = kindSearchDir) ∧
      h = encodeHandle kind i len

/-- `TryFindDirHandle` returns the invalid handle or a FileDir/SearchDir
handle carrying the queried directory length. -/
theorem tryFindDirHandle_shape (d : WStr) (s : FSState) :
    tryFindDirHandle d s = INVALID_HANDLE_VALUE
    ∨ (∃ i, tryFindDirHandle d s = encodeHandle kindFileDir i d.length)
    ∨ (∃ i, tryFindDirHandle d s = encodeHandle kindSearchDir i d.length) := by
  cases h1 : findMatchIdx (fun f => isDirOf d f.name) s.includedFiles with
  | some i => exact Or.inr (Or.inl ⟨i, by simp [tryFindDirHandle, h1]⟩)
  | none =>
    cases h2 : findMatchIdx (fun e => isDirPrefixOrSame d e) s.searchEntries with
    | some i => exact Or.inr (Or.inr ⟨i, by simp [tryFindDirHandle, h1, h2]⟩)
    | none => exact Or.inl (by simp [tryFindDirHandle, h1, h2])

/-- Any bitfield-encoded handle is below `2^20`, hence distinct from
`INVALID_HANDLE_VALUE`. -/
theorem encodeHandle_lt (kind i len : Nat) : encodeHandle kind i len < 2 ^ 20 := by
  unfold encodeHandle
  have hp : (2 : Nat) ^ 20 = 1048576 := by norm_num
  rw [hp]
  omega

theorem encodeHandle_ne_invalid (kind i len : Nat) :
    encodeHandle kind i len ≠ INVALID_HANDLE_VALUE := by
  have h := encodeHandle_lt kind i len
  have hp : (2 : Nat) ^ 20 = 1048576 := by norm_num
  have hq : (2 : Nat) ^ 64 = 18446744073709551616 := by norm_num
  unfold INVALID_HANDLE_VALUE
  omega

/-- `CreateFileW` returns the invalid handle or an issued handle value. -/
theorem createFileW_issued (p : WStr) (s : FSState) :
    (createFileW p s).1 = INVALID_HANDLE_VALUE ∨ issuedHandleVal (createFileW p s).1 := by
  by_cases ho : s.outputStreamName = some (MakeAbsoluteOrCurDirRelativeW p)
  · have hval : (createFileW p s).1 = outputHandle := by
      simp [createFileW, ho]
    rw [hval]
    exact Or.inr (Or.inr (Or.inr (Or.inl rfl)))
  · rcases tryFindDirHandle_shape (MakeAbsoluteOrCurDirRelativeW p) s with hd | ⟨i, hd⟩ | ⟨i, hd⟩
    · by_cases hr : (tryFindOrOpen (MakeAbsoluteOrCurDirRelativeW p) s).1 = ERROR_SUCCESS
      · have hval : (createFileW p s).1 = encodeHandle kindFile
            ((tryFindOrOpen (MakeAbsoluteOrCurDirRelativeW p) s).2.1.getD 0) 0 := by
          simp [createFileW, ho, hd, hr]
        rw [hval]
        exact Or.inr (Or.inr (Or.inr (Or.inr ⟨kindFile, _, 0, Or.inl rfl, rfl⟩)))
      · have hval : (createFileW p s).1 = INVALID_HANDLE_VALUE := by
          simp [createFileW, ho, hd, hr]
        exact Or.inl hval
    · have hne : encodeHandle kindFileDir i (MakeAbsoluteOrCurDirRelativeW p).length
          ≠ INVALID_HANDLE_VALUE := encodeHandle_ne_invalid _ _ _
      have hval : (createFileW p s).1
          = encodeHandle kindFileDir i (MakeAbsoluteOrCurDirRelativeW p).length := by
        simp [createFileW, ho, hd, hne]
      rw [hval]
      exact Or.inr (Or.inr (Or.inr (Or.inr
        ⟨kindFileDir, i, (MakeAbsoluteOrCurDirRelativeW p).length, Or.inr (Or.inl rfl), rfl⟩)))
    · have hne : encodeHandle kindSearchDir i (MakeAbsoluteOrCurDirRelativeW p).length
          ≠ INVALID_HANDLE_VALUE := encodeHandle_ne_invalid _ _ _
      have hval : (createFileW p s).1
          = encodeHandle kindSearchDir i (MakeAbsoluteOrCurDirRelativeW p).length := by
        simp [createFileW, ho, hd, hne]
      rw [hval]
      exact Or.inr (Or.inr (Or.inr (Or.inr
        ⟨kindSearchDir, i, (MakeAbsoluteOrCurDirRelativeW p).length, Or.inr (Or.inr rfl), rfl⟩)))

/-! ## Claims -/

/-- C1: the claim states that encode/decode round-trips exactly for every
(kind, index, length) triple with index below the registry bound of 1000 and
that distinct triples encode injectively.  The code truncates the index to the
8-bit `Offset` field, so index 256 — well below `MaxIncludedFiles` — collides
with index 0 and does not round-trip: decoding always returns the fields
modulo their widths. -/
theorem c1_handle_codec_truncates :
    (∀ kind offset length : Nat,
      decodeHandle (encodeHandle kind offset length)
        = (kind % 16, offset % 256, length % 256))
    ∧ encodeHandle kindFile 256 0 = encodeHandle kindFile 0 0
    ∧ decodeHandle (encodeHandle kindFile 256 0) = (kindFile, 0, 0)
    ∧ 256 < MaxIncludedFiles
    ∧ (kindFile, (256 : Nat), (0 : Nat)) ≠ (kindFile, 0, 0) := by
  refine ⟨?_, by decide, by decide, by decide, by decide⟩
  intro kind offset length
  unfold decodeHandle encodeHandle handleKind handleOffset handleLength
  simp only [Prod.mk.injEq]
  refine ⟨by omega, by omega, by omega⟩

/-- C3 counterexample: with primary source `./main.hlsl` of one byte,
`CreateFileW("main.hlsl")` does NOT fail with a not-found result — the path is
normalized to `./main.hlsl` first, which matches registry entry 0, so the call
returns the primary file handle and sets no error. -/
theorem c3_open_unrooted_succeeds :
    (createFileW (wstr "main.hlsl") (freshState (wstr "./main.hlsl") [65] none)).1
      = encodeHandle kindFile 0 0
    ∧ (createFileW (wstr "main.hlsl") (freshState (wstr "./main.hlsl") [65] none)).2.1
      = none
    ∧ encodeHandle kindFile 0 0 ≠ INVALID_HANDLE_VALUE := by
  exact ⟨by decide, rfl, by decide⟩

/-- C3 (amended): with primary source `./main.hlsl` and one byte of content,
both `open("main.hlsl")` and `open("./main.hlsl")` succeed and return the
primary file handle (the non-rooted spelling is normalized to the rooted
primary path first), whose queried size is 1. -/
theorem c3_open_primary :
    MakeAbsoluteOrCurDirRelativeW (wstr "main.hlsl") = wstr "./main.hlsl"
    ∧ createFileW (wstr "main.hlsl") (freshState (wstr "./main.hlsl") [65] none)
      = (encodeHandle kindFile 0 0, none, freshState (wstr "./main.hlsl") [65] none)
    ∧ createFileW (wstr "./main.hlsl") (freshState (wstr "./main.hlsl") [65] none)
      = (encodeHandle kindFile 0 0, none, freshState (wstr "./main.hlsl") [65] none)
    ∧ getFileInformationByHandle (encodeHandle kindFile 0 0)
        (freshState (wstr "./main.hlsl") [65] none)
      = some (FILE_ATTRIBUTE_NORMAL, 1) := by
  exact ⟨by decide, rfl, rfl, rfl⟩

/-- C4 counterexample: `resize_file` does not fail with the
operation-not-supported error — it returns the success errno 0 and sets no
last error (though it does leave the state unchanged). -/
theorem c4_resize_returns_success :
    resize_file (wstr "./out.bin") 5 (freshState (wstr "./main.hlsl") [65] none)
      = (0, none, freshState (wstr "./main.hlsl") [65] none)
    ∧ (0 : Nat) ≠ ERROR_NOT_CAPABLE := by
  exact ⟨rfl, by decide⟩

/-- C4 (amended): delete, rename, create-directory, create-link, set-time and
memory-map operations all fail with `ERROR_NOT_CAPABLE` and leave the adapter
state unchanged; `resize_file` also leaves the state unchanged but reports
success (errno 0) instead of failing. -/
theorem c4_mutating_ops (s : FSState) (p q : WStr)
    (flags sz hi lo cnt addr : Nat) (h : Nat) :
    deleteFileW p s = (false, some ERROR_NOT_CAPABLE, s)
    ∧ removeDirectoryW p s = (false, some ERROR_NOT_CAPABLE, s)
    ∧ createDirectoryW p s = (false, some ERROR_NOT_CAPABLE, s)
    ∧ moveFileExW p q flags s = (false, some ERROR_NOT_CAPABLE, s)
    ∧ createHardLinkW p q s = (false, some ERROR_NOT_CAPABLE, s)
    ∧ createSymbolicLinkW p q flags s = (false, some ERROR_NOT_CAPABLE, s)
    ∧ setFileTime h s = (false, some ERROR_NOT_CAPABLE, s)
    ∧ createFileMappingW h flags hi lo s
        = (INVALID_HANDLE_VALUE, some ERROR_NOT_CAPABLE, s)
    ∧ mapViewOfFile h flags hi lo cnt s = (none, some ERROR_NOT_CAPABLE, s)
    ∧ unmapViewOfFile addr s = (false, some ERROR_NOT_CAPABLE, s)
    ∧ resize_file p sz s = (0, none, s) := by
  exact ⟨rfl, rfl, rfl, rfl, rfl, rfl, rfl, rfl, rfl, rfl, rfl⟩

/-- C5: a queried path matches a registered file path as a directory exactly
when it is a strict, separator-aligned prefix of it (either the last character
of the queried path is a separator, or the character of the file path just
past the prefix is one); `TryFindDirHandle` returns the FileDir handle of the
first such file entry; concretely, with `./inc/foo.h` registered, querying
`./inc` yields a directory handle while `./in` yields no match. -/
theorem c5_dir_prefix_matching :
    (∀ d f : WStr, d ≠ [] →
      (isDirOf d f = true ↔
        d.length < f.length ∧ f.take d.length = d ∧
          (isSep (cAt d (d.length - 1)) = true ∨ isSep (cAt f d.length) = true)))
    ∧ (∀ (s : FSState) (d : WStr) (i : Nat),
        findMatchIdx (fun f => isDirOf d f.name) s.includedFiles = some i →
        tryFindDirHandle d s = encodeHandle kindFileDir i d.length)
    ∧ tryFindDirHandle (wstr "./inc") (freshState (wstr "./inc/foo.h") [0] none)
        = encodeHandle kindFileDir 0 5
    ∧ tryFindDirHandle (wstr "./in") (freshState (wstr "./inc/foo.h") [0] none)
        = INVALID_HANDLE_VALUE := by
  refine ⟨?_, ?_, by decide, by decide⟩
  · intro d f _hd
    unfold isDirOf
    split_ifs with h1 h2 h3
    · constructor
      · intro h
        cases h
      · rintro ⟨hlt, -, -⟩
        omega
    · constructor
      · intro h
        cases h
      · rintro ⟨-, heq, -⟩
        exact absurd heq h2
    · exact ⟨fun _ => ⟨by omega, not_not.mp h2, Or.inl h3⟩, fun _ => rfl⟩
    · constructor
      · intro h
        exact ⟨by omega, not_not.mp h2, Or.inr h⟩
      · rintro ⟨-, -, h | h⟩
        · exact absurd h h3
        · exact h
  · intro s d i hm
    simp [tryFindDirHandle, hm]

/-- C5 witness: the separator-aligned prefix characterization and the
registry directory match, instantiated at `./inc` against `./inc/foo.h`. -/
theorem c5_dir_prefix_matching_witness :
    isDirOf (wstr "./inc") (wstr "./inc/foo.h") = true
    ∧ tryFindDirHandle (wstr "./inc") (freshState (wstr "./inc/foo.h") [0] none)
        = encodeHandle kindFileDir 0 5 :=
  ⟨(c5_dir_prefix_matching.1 (wstr "./inc") (wstr "./inc/foo.h") (by decide)).mpr
      ⟨by decide, by decide, Or.inr (by decide)⟩,
   c5_dir_prefix_matching.2.1 (freshState (wstr "./inc/foo.h") [0] none)
      (wstr "./inc") 0 (by decide)⟩

/-- C8 counterexample: the word 5 (Special kind with offset 5) is not a handle
the adapter ever issues, yet `CloseHandle` succeeds on it — the code's notion
of "known" is merely "nonzero word" — instead of failing with an
invalid-handle error as the claim requires for unknown handles. -/
theorem c8_close_unissued_succeeds :
    closeHandle 5 (freshState (wstr "./m") [65] none)
      = (true, none, freshState (wstr "./m") [65] none)
    ∧ ¬ issuedHandleVal 5 := by
  refine ⟨rfl, ?_⟩
  rintro (h | h | h | ⟨k, i, l, hk, he⟩)
  · exact absurd h (by decide)
  · exact absurd h (by decide)
  · exact absurd h (by decide)
  · rcases hk with rfl | rfl | rfl <;>
      (simp only [encodeHandle, kindFile, kindFileDir, kindSearchDir] at he; omega)

/-- C8 (amended): `CloseHandle` is a stateless no-op that succeeds on every
nonzero handle word — in particular on every handle the adapter issues, all of
which are nonzero — and fails with `ERROR_INVALID_HANDLE` exactly on the zero
(unresolved-sentinel) word; it does not distinguish issued from unissued
nonzero values. -/
theorem c8_close_known_handles :
    (∀ (h : Nat) (s : FSState), h ≠ 0 → closeHandle h s = (true, none, s))
    ∧ (∀ s : FSState, closeHandle 0 s = (false, some ERROR_INVALID_HANDLE, s))
    ∧ (∀ h : Nat, issuedHandleVal h → h ≠ 0) := by
  refine ⟨?_, fun s => rfl, ?_⟩
  · intro h s hne
    simp [closeHandle, isKnownHandle, hne]
  · rintro h (rfl | rfl | rfl | ⟨k, i, l, hk, rfl⟩)
    · decide
    · decide
    · decide
    · rcases hk with rfl | rfl | rfl <;>
        (simp only [encodeHandle, kindFile, kindFileDir, kindSearchDir]; omega)

/-- C8 witness: closing the standard-output sentinel handle (issued, nonzero)
succeeds without touching the state. -/
theorem c8_close_known_handles_witness :
    closeHandle stdOutHandle (freshState (wstr "./m") [65] none)
      = (true, none, freshState (wstr "./m") [65] none)
    ∧ issuedHandleVal stdOutHandle :=
  ⟨c8_close_known_handles.1 stdOutHandle (freshState (wstr "./m") [65] none) (by decide),
   Or.inl rfl⟩

/-- C10: every handle value the adapter issues survives the
`open_osfhandle`/`get_osfhandle` round trip unchanged; the standard-output and
standard-error sentinels encode to the word values 1 and 2, so descriptors 1
and 2 and those sentinels map to each other under `HandleFromFD`,
`open_osfhandle` and `get_osfhandle`; and `CreateFileW` only ever returns the
invalid handle or an issued handle value. -/
theorem c10_osfhandle_roundtrip :
    (∀ h : Nat, issuedHandleVal h → get_osfhandle (open_osfhandle h) = h)
    ∧ stdOutHandle = 1 ∧ stdErrHandle = 2
    ∧ handleFromFD 1 = stdOutHandle ∧ handleFromFD 2 = stdErrHandle
    ∧ open_osfhandle stdOutHandle = 1 ∧ open_osfhandle stdErrHandle = 2
    ∧ get_osfhandle 1 = stdOutHandle ∧ get_osfhandle 2 = stdErrHandle
    ∧ (∀ (p : WStr) (s : FSState),
        (createFileW p s).1 = INVALID_HANDLE_VALUE
        ∨ issuedHandleVal (createFileW p s).1) := by
  refine ⟨?_, by decide, by decide, by decide, by decide, by decide, by decide,
    by decide, by decide, createFileW_issued⟩
  rintro h (rfl | rfl | rfl | ⟨k, i, l, hk, rfl⟩)
  · decide
  · decide
  · decide
  · have hlo : 65536 ≤ encodeHandle k i l := by
      rcases hk with rfl | rfl | rfl <;>
        (simp only [encodeHandle, kindFile, kindFileDir, kindSearchDir]; omega)
    have hhi : encodeHandle k i l < 2 ^ 20 := encodeHandle_lt k i l
    rw [show (2:Nat)^20 = 1048576 from by norm_num] at hhi
    have hso : stdOutHandle = 1 := by decide
    have hse : stdErrHandle = 2 := by decide
    unfold open_osfhandle
    rw [hso, hse, if_neg (by omega), if_neg (by omega)]
    have ht : toInt32 (encodeHandle k i l) = (encodeHandle k i l : Int) := by
      unfold toInt32
      rw [show (2:Int)^31 = 2147483648 from by norm_num,
        show (2:Int)^32 = 4294967296 from by norm_num]
      omega
    rw [ht]
    unfold get_osfhandle handleFromFD
    rw [hso, hse, if_neg (by omega), if_neg (by omega),
      show (2:Int)^64 = 18446744073709551616 from by norm_num]
    omega

/-- C10 witness: the round trip at the file handle of registry index 0. -/
theorem c10_osfhandle_roundtrip_witness :
    issuedHandleVal (encodeHandle kindFile 0 0)
    ∧ get_osfhandle (open_osfhandle (encodeHandle kindFile 0 0))
        = encodeHandle kindFile 0 0 :=
  ⟨Or.inr (Or.inr (Or.inr ⟨kindFile, 0, 0, Or.inl rfl, rfl⟩)),
   c10_osfhandle_roundtrip.1 (encodeHandle kindFile 0 0)
     (Or.inr (Or.inr (Or.inr ⟨kindFile, 0, 0, Or.inl rfl, rfl⟩)))⟩

/-! ## Path normalizer claims -/

/-- In a NUL-free path, reading position `i` gives the terminator exactly when
the path has at most `i` characters. -/
theorem cAt_eq_zero_iff :
    ∀ (p : WStr), (0 : Nat) ∉ p → ∀ i, (cAt p i = 0 ↔ p.length ≤ i) := by
  intro p
  induction p with
  | nil =>
    intro _ i
    simp [cAt]
  | cons a t ih =>
    intro hnull i
    have ha : a ≠ 0 := by
      intro h
      exact hnull (by simp [h])
    have ht : (0 : Nat) ∉ t := by
      intro h
      exact hnull (List.mem_cons_of_mem a h)
    cases i with
    | zero => simp [cAt, ha]
    | succ j =>
      have hj := ih ht j
      simp only [cAt, List.getD_cons_succ, List.length_cons] at hj ⊢
      rw [hj]
      omega

/-- Prefixing the current-directory marker always yields a rooted path. -/
theorem IsAbs_dotslash (p : WStr) :
    IsAbsoluteOrCurDirRelativeW (dotChar :: sepFwd :: p) = true := by
  simp [IsAbsoluteOrCurDirRelativeW, cAt, dotChar, sepFwd]

/-- Modelled from the claim's wording (C7): a path is NOT rooted when it does
not start with `.` followed by end-of-string or a separator, has no
disk-designator-then-separator prefix, and does not start with a double
separator.  This spec-side characterization is compared against the code's
`IsAbsoluteOrCurDirRelativeW` (which accepts only backslashes in the last two
cases, so spec-not-rooted implies code-not-rooted). -/
def specNotRooted (p : WStr) : Bool :=
  !((cAt p 0 == dotChar && (p.length == 1 || isSep (cAt p 1)))
    || (cAt p 1 == colonChar && isSep (cAt p 2))
    || (isSep (cAt p 0) && isSep (cAt p 1)))

/-- A path that the claim's characterization calls not-rooted is also
not rooted for the code. -/
theorem specNotRooted_not_rooted (p : WStr) (hnull : (0 : Nat) ∉ p)
    (hs : specNotRooted p = true) : IsAbsoluteOrCurDirRelativeW p = false := by
  simp only [specNotRooted, isSep, Bool.not_eq_true', Bool.or_eq_false_iff,
    Bool.and_eq_false_iff, beq_eq_false_iff_ne] at hs
  obtain ⟨⟨h1, h2⟩, h3⟩ := hs
  unfold IsAbsoluteOrCurDirRelativeW
  split_ifs with hemp hA hColon hUNC
  · rfl
  · have hA' : cAt p 0 = dotChar := by simpa using hA
    rcases h1 with h1 | ⟨hlen, hb, hf⟩
    · exact absurd hA' h1
    · have hz : cAt p 1 ≠ 0 := by
        intro h0
        have hle : p.length ≤ 1 := (cAt_eq_zero_iff p hnull 1).mp h0
        have hpos : 0 < p.length := List.length_pos.mpr hemp
        omega
      simp only [Bool.or_eq_false_iff, beq_eq_false_iff_ne, ne_eq]
      exact ⟨⟨hz, hf⟩, hb⟩
  · simp only [Bool.and_eq_true, beq_iff_eq] at hColon
    rcases h2 with h2 | ⟨h92, _⟩
    · exact absurd hColon.1 h2
    · exact absurd hColon.2 h92
  · have hU : cAt p 0 = sepBack := by simpa using hUNC
    rcases h3 with ⟨hb0, _⟩ | ⟨hb1, _⟩
    · exact absurd hU hb0
    · simp only [beq_eq_false_iff_ne, ne_eq]
      exact hb1
  · rfl

/-- C7: for every NUL-free path that the claim's characterization calls not
rooted, normalization prefixes `./` and the result is rooted; and
normalization is idempotent on every path. -/
theorem c7_normalize_idempotent :
    (∀ p : WStr, (0 : Nat) ∉ p → specNotRooted p = true →
      MakeAbsoluteOrCurDirRelativeW p = dotChar :: sepFwd :: p
      ∧ IsAbsoluteOrCurDirRelativeW (MakeAbsoluteOrCurDirRelativeW p) = true)
    ∧ (∀ p : WStr,
      MakeAbsoluteOrCurDirRelativeW (MakeAbsoluteOrCurDirRelativeW p)
        = MakeAbsoluteOrCurDirRelativeW p) := by
  constructor
  · intro p hnull hs
    have hfalse : IsAbsoluteOrCurDirRelativeW p = false :=
      specNotRooted_not_rooted p hnull hs
    have hm : MakeAbsoluteOrCurDirRelativeW p = dotChar :: sepFwd :: p := by
      unfold MakeAbsoluteOrCurDirRelativeW
      rw [hfalse]
      simp
    refine ⟨hm, ?_⟩
    rw [hm]
    exact IsAbs_dotslash p
  · intro p
    by_cases h : IsAbsoluteOrCurDirRelativeW p = true
    · simp [MakeAbsoluteOrCurDirRelativeW, h]
    · simp [MakeAbsoluteOrCurDirRelativeW, h, IsAbs_dotslash p]

/-- C7 witness: the non-rooted path `abc` normalizes to `./abc`, which is
rooted. -/
theorem c7_normalize_idempotent_witness :
    (0 : Nat) ∉ wstr "abc" ∧ specNotRooted (wstr "abc") = true
    ∧ MakeAbsoluteOrCurDirRelativeW (wstr "abc") = dotChar :: sepFwd :: wstr "abc"
    ∧ IsAbsoluteOrCurDirRelativeW (MakeAbsoluteOrCurDirRelativeW (wstr "abc")) = true :=
  ⟨by decide, by decide,
   (c7_normalize_idempotent.1 (wstr "abc") (by decide) (by decide)).1,
   (c7_normalize_idempotent.1 (wstr "abc") (by decide) (by decide)).2⟩

/-! ## Resolve sequences -/

/-- Run `TryFindOrOpen` over a sequence of paths, collecting the returned
error codes and threading the state. -/
def resolveSeq (qs : List WStr) (s : FSState) : List Nat × FSState :=
  match qs with
  | [] => ([], s)
  | q :: rest =>
    let r := tryFindOrOpen q s
    let rr := resolveSeq rest r.2.2
    (r.1 :: rr.1, rr.2)

@[simp] theorem resolveSeq_nil (s : FSState) : resolveSeq [] s = ([], s) := rfl

theorem resolveSeq_cons (q : WStr) (qs : List WStr) (s : FSState) :
    resolveSeq (q :: qs) s
      = ((tryFindOrOpen q s).1 :: (resolveSeq qs (tryFindOrOpen q s).2.2).1,
         (resolveSeq qs (tryFindOrOpen q s).2.2).2) := rfl

theorem count_append_single_ne (l : List WStr) (q p : WStr) (h : q ≠ p) :
    (l ++ [q]).count p = l.count p := by
  have hpq : ¬(p = q) := fun he => h he.symm
  simp [List.count_append, List.count_cons, beq_iff_eq, hpq, h]

theorem count_append_single_eq (l : List WStr) (p : WStr) :
    (l ++ [p]).count p = l.count p + 1 := by
  simp [List.count_append, List.count_cons]

/-- Once a path is present in the registry, any sequence of further resolves
never invokes the loader for it and it stays present. -/
theorem resolveSeq_seen_stable :
    ∀ (qs : List WStr) (s : FSState) (p : WStr),
      findMatchIdx (fileNameIs p) s.includedFiles ≠ none →
      (resolveSeq qs s).2.loaderCalls.count p = s.loaderCalls.count p
      ∧ findMatchIdx (fileNameIs p) (resolveSeq qs s).2.includedFiles ≠ none := by
  intro qs
  induction qs with
  | nil =>
    intro s p hseen
    exact ⟨rfl, hseen⟩
  | cons q rest ih =>
    intro s p hseen
    rcases tryFindOrOpen_cases q s with ⟨j, hf, hr⟩ | ⟨hf, hl, hr⟩ | ⟨hf, hl, hcap, hr⟩ |
      ⟨load, hf, hl, hcap, ⟨hq, hr⟩ | ⟨hq, hr⟩ | ⟨b, hq, hr⟩⟩
    · rw [resolveSeq_cons, hr]
      exact ih s p hseen
    · rw [resolveSeq_cons, hr]
      exact ih s p hseen
    · rw [resolveSeq_cons, hr]
      exact ih s p hseen
    · rw [resolveSeq_cons, hr]
      have hqp : q ≠ p := fun he => hseen (he ▸ hf)
      have := ih (logCall q s) p (by simpa using hseen)
      simp only [logCall_includedFiles, logCall_loaderCalls] at this
      refine ⟨?_, this.2⟩
      rw [this.1, count_append_single_ne _ _ _ hqp]
    · rw [resolveSeq_cons, hr]
      have hqp : q ≠ p := fun he => hseen (he ▸ hf)
      have := ih (logCall q s) p (by simpa using hseen)
      simp only [logCall_includedFiles, logCall_loaderCalls] at this
      refine ⟨?_, this.2⟩
      rw [this.1, count_append_single_ne _ _ _ hqp]
    · rw [resolveSeq_cons, hr]
      have hqp : q ≠ p := fun he => hseen (he ▸ hf)
      have hseen2 : findMatchIdx (fileNameIs p)
          (maybeTrace q s.includedFiles.length
            (appendFile q b (logCall q s))).includedFiles ≠ none := by
        simp only [maybeTrace_includedFiles, appendFile_includedFiles, logCall_includedFiles]
        cases hj : findMatchIdx (fileNameIs p) s.includedFiles with
        | none => exact absurd hj hseen
        | some j =>
          rw [findMatchIdx_append_left _ _ _ j hj]
          exact Option.some_ne_none j
      have := ih _ p hseen2
      refine ⟨?_, this.2⟩
      rw [this.1]
      simp only [maybeTrace_loaderCalls, appendFile_loaderCalls, logCall_loaderCalls]
      rw [count_append_single_ne _ _ _ hqp]

/-- A path the loader resolves successfully is passed to the loader at most
once more than it already has been, over any resolve sequence. -/
theorem resolveSeq_blob_once :
    ∀ (qs : List WStr) (s : FSState) (load : WStr → LoadResult) (p : WStr) (b : List Nat),
      s.includeLoader = some load → load p = .blob b →
      findMatchIdx (fileNameIs p) s.includedFiles = none →
      (resolveSeq qs s).2.loaderCalls.count p ≤ s.loaderCalls.count p + 1 := by
  intro qs
  induction qs with
  | nil =>
    intro s load p b _ _ _
    simp
  | cons q rest ih =>
    intro s load p b hl hb hun
    rcases tryFindOrOpen_cases q s with ⟨j, hf, hr⟩ | ⟨hf, hl', hr⟩ | ⟨hf, hl', hcap, hr⟩ |
      ⟨load', hf, hl', hcap, ⟨hq, hr⟩ | ⟨hq, hr⟩ | ⟨b', hq, hr⟩⟩
    · rw [resolveSeq_cons, hr]
      exact ih s load p b hl hb hun
    · rw [hl] at hl'
      cases hl'
    · rw [resolveSeq_cons, hr]
      exact ih s load p b hl hb hun
    · -- loader failed on q
      have hll : load = load' := Option.some.inj (hl.symm.trans hl')
      rw [← hll] at hq
      by_cases hqp : q = p
      · subst hqp
        rw [hb] at hq
        cases hq
      · rw [resolveSeq_cons, hr]
        have := ih (logCall q s) load p b (by simpa using hl) hb (by simpa using hun)
        simp only [logCall_loaderCalls] at this
        rw [count_append_single_ne _ _ _ hqp] at this
        exact this
    · -- loader reported no blob for q
      have hll : load = load' := Option.some.inj (hl.symm.trans hl')
      rw [← hll] at hq
      by_cases hqp : q = p
      · subst hqp
        rw [hb] at hq
        cases hq
      · rw [resolveSeq_cons, hr]
        have := ih (logCall q s) load p b (by simpa using hl) hb (by simpa using hun)
        simp only [logCall_loaderCalls] at this
        rw [count_append_single_ne _ _ _ hqp] at this
        exact this
    · -- loader returned bytes for q: q is appended
      rw [resolveSeq_cons, hr]
      by_cases hqp : q = p
      · subst hqp
        have hseen2 : findMatchIdx (fileNameIs q)
            (maybeTrace q s.includedFiles.length
              (appendFile q b' (logCall q s))).includedFiles ≠ none := by
          simp only [maybeTrace_includedFiles, appendFile_includedFiles, logCall_includedFiles]
          rw [findMatchIdx_append_hit _ _ _ hun (by simp [fileNameIs])]
          exact Option.some_ne_none _
        have := (resolveSeq_seen_stable rest _ q hseen2).1
        rw [this]
        simp only [maybeTrace_loaderCalls, appendFile_loaderCalls, logCall_loaderCalls]
        rw [count_append_single_eq]
      · have hun2 : findMatchIdx (fileNameIs p)
            (maybeTrace q s.includedFiles.length
              (appendFile q b' (logCall q s))).includedFiles = none := by
          simp only [maybeTrace_includedFiles, appendFile_includedFiles, logCall_includedFiles]
          exact findMatchIdx_append_miss _ _ _ hun
            (by simp [fileNameIs, beq_eq_false_iff_ne]; exact hqp)
        have := ih _ load p b (by simpa using hl) hb hun2
        simp only [maybeTrace_loaderCalls, appendFile_loaderCalls, logCall_loaderCalls] at this
        rw [count_append_single_ne _ _ _ hqp] at this
        exact this

/-- C6 counterexample: when the loader fails on a path, a second resolve of
the same path invokes the loader again — so over a call sequence the resolver
is NOT invoked at most once per distinct path in general: two resolves of
`./a` against an always-failing loader produce two loader invocations. -/
theorem c6_failed_load_retried :
    (tryFindOrOpen (wstr "./a")
        (tryFindOrOpen (wstr "./a")
          (freshState (wstr "./m") [65] (some fun _ => LoadResult.failed))).2.2).2.2.loaderCalls
      = [wstr "./a", wstr "./a"]
    ∧ (tryFindOrOpen (wstr "./a")
        (tryFindOrOpen (wstr "./a")
          (freshState (wstr "./m") [65]
            (some fun _ => LoadResult.failed))).2.2).2.2.loaderCalls.count (wstr "./a")
      = 2 := by
  exact ⟨by decide, by decide⟩

/-- C6 (amended): resolving a path that is already present in the registry
returns the same index as the resolve that produced it and leaves the state —
including the loader-invocation log — unchanged; and over any call sequence
the loader is invoked at most once per distinct path that it resolves
successfully (paths on which it fails or reports no file can be retried). -/
theorem c6_resolver_invoked_once :
    (∀ (p : WStr) (s : FSState) (i : Nat) (s₁ : FSState),
        tryFindOrOpen p s = (ERROR_SUCCESS, some i, s₁) →
        tryFindOrOpen p s₁ = (ERROR_SUCCESS, some i, s₁))
    ∧ (∀ (s : FSState) (load : WStr → LoadResult) (p : WStr) (b : List Nat)
        (qs : List WStr),
        s.includeLoader = some load → load p = .blob b →
        (resolveSeq qs s).2.loaderCalls.count p ≤ s.loaderCalls.count p + 1) := by
  constructor
  · intro p s i s₁ h
    rcases tryFindOrOpen_cases p s with ⟨j, hf, hr⟩ | ⟨hf, hl, hr⟩ | ⟨hf, hl, hcap, hr⟩ |
      ⟨load, hf, hl, hcap, ⟨hq, hr⟩ | ⟨hq, hr⟩ | ⟨b, hq, hr⟩⟩
    · have hc := h.symm.trans hr
      simp only [Prod.mk.injEq, Option.some.injEq] at hc
      obtain ⟨-, hij, hss⟩ := hc
      subst hss
      subst hij
      exact hr
    · have hc := h.symm.trans hr
      simp only [Prod.mk.injEq, ERROR_SUCCESS, ERROR_NOT_FOUND] at hc
      omega
    · have hc := h.symm.trans hr
      simp only [Prod.mk.injEq, ERROR_SUCCESS, ERROR_OUT_OF_STRUCTURES] at hc
      omega
    · have hc := h.symm.trans hr
      simp only [Prod.mk.injEq, ERROR_SUCCESS, ERROR_UNHANDLED_EXCEPTION] at hc
      omega
    · have hc := h.symm.trans hr
      simp only [Prod.mk.injEq, ERROR_SUCCESS, ERROR_NOT_FOUND] at hc
      omega
    · have hc := h.symm.trans hr
      simp only [Prod.mk.injEq, Option.some.injEq] at hc
      obtain ⟨-, hij, hss⟩ := hc
      subst hss
      subst hij
      have hfind : findMatchIdx (fileNameIs p) (s.includedFiles ++ [⟨p, b⟩])
          = some s.includedFiles.length :=
        findMatchIdx_append_hit _ _ _ hf (by simp [fileNameIs])
      simp [tryFindOrOpen, hfind]
  · intro s load p b qs hl hb
    cases hseen : findMatchIdx (fileNameIs p) s.includedFiles with
    | some j =>
      have := (resolveSeq_seen_stable qs s p (by rw [hseen]; exact Option.some_ne_none j)).1
      omega
    | none =>
      exact resolveSeq_blob_once qs s load p b hl hb hseen

/-- C6 witness: resolving the primary source path twice returns index 0 both
times without a loader call, and a two-element resolve sequence of a loadable
path invokes the loader at most once. -/
theorem c6_resolver_invoked_once_witness :
    tryFindOrOpen (wstr "./m")
        (freshState (wstr "./m") [65] (some fun _ => LoadResult.blob [66]))
      = (ERROR_SUCCESS, some 0,
         freshState (wstr "./m") [65] (some fun _ => LoadResult.blob [66]))
    ∧ (resolveSeq [wstr "./a", wstr "./a"]
        (freshState (wstr "./m") [65] (some fun _ => LoadResult.blob [66]))).2.loaderCalls.count
          (wstr "./a")
      ≤ (freshState (wstr "./m") [65]
          (some fun _ => LoadResult.blob [66])).loaderCalls.count (wstr "./a") + 1 :=
  ⟨c6_resolver_invoked_once.1 (wstr "./m")
      (freshState (wstr "./m") [65] (some fun _ => LoadResult.blob [66])) 0
      (freshState (wstr "./m") [65] (some fun _ => LoadResult.blob [66])) (by rfl),
   c6_resolver_invoked_once.2
      (freshState (wstr "./m") [65] (some fun _ => LoadResult.blob [66]))
      (fun _ => LoadResult.blob [66]) (wstr "./a") [66] [wstr "./a", wstr "./a"]
      rfl rfl⟩

/-! ## Capacity behaviour of resolve sequences -/

/-- The error codes `TryFindOrOpen` produces for a run of fresh, loadable
paths starting from a registry of `n` entries: success until the registry
holds `MaxIncludedFiles` entries, `ERROR_OUT_OF_STRUCTURES` from then on. -/
def expectedCodes (n : Nat) : List WStr → List Nat
  | [] => []
  | _ :: rest =>
    if n = MaxIncludedFiles then ERROR_OUT_OF_STRUCTURES :: expectedCodes n rest
    else ERROR_SUCCESS :: expectedCodes (n + 1) rest

theorem expectedCodes_get :
    ∀ (qs : List WStr) (n : Nat), n ≤ MaxIncludedFiles → ∀ i, i < qs.length →
      (expectedCodes n qs).get? i
        = some (if n + i < MaxIncludedFiles then ERROR_SUCCESS
                else ERROR_OUT_OF_STRUCTURES) := by
  intro qs
  induction qs with
  | nil =>
    intro n hn i hi
    simp at hi
  | cons q rest ih =>
    intro n hn i hi
    by_cases hcap : n = MaxIncludedFiles
    · unfold expectedCodes
      rw [if_pos hcap]
      cases i with
      | zero =>
        rw [if_neg (by omega)]
        rfl
      | succ j =>
        simp only [List.get?_cons_succ]
        rw [ih n hn j (by simpa using hi)]
        rw [if_neg (by omega), if_neg (by omega)]
    · unfold expectedCodes
      rw [if_neg hcap]
      cases i with
      | zero =>
        rw [if_pos (by omega)]
        rfl
      | succ j =>
        simp only [List.get?_cons_succ]
        rw [ih (n + 1) (by omega) j (by simpa using hi)]
        have hadd : n + 1 + j = n + (j + 1) := by omega
        rw [hadd]

/-- Resolving pairwise-distinct fresh paths against a loader that has bytes
for every path yields exactly the expected code sequence. -/
theorem resolveSeq_codes :
    ∀ (qs : List WStr) (s : FSState) (load : WStr → LoadResult),
      s.includeLoader = some load →
      (∀ q ∈ qs, ∃ b, load q = .blob b) →
      qs.Nodup →
      (∀ q ∈ qs, findMatchIdx (fileNameIs q) s.includedFiles = none) →
      s.includedFiles.length ≤ MaxIncludedFiles →
      (resolveSeq qs s).1 = expectedCodes s.includedFiles.length qs := by
  intro qs
  induction qs with
  | nil =>
    intro s load hl hb hnd hun hlen
    simp [expectedCodes]
  | cons q rest ih =>
    intro s load hl hb hnd hun hlen
    have hfq : findMatchIdx (fileNameIs q) s.includedFiles = none :=
      hun q (List.mem_cons_self q rest)
    by_cases hcap : s.includedFiles.length = MaxIncludedFiles
    · have hr : tryFindOrOpen q s = (ERROR_OUT_OF_STRUCTURES, none, s) := by
        simp [tryFindOrOpen, hfq, hl, hcap]
      rw [resolveSeq_cons, hr]
      dsimp only
      unfold expectedCodes
      rw [if_pos hcap]
      congr 1
      exact ih s load hl (fun q' h => hb q' (List.mem_cons_of_mem q h))
        hnd.of_cons (fun q' h => hun q' (List.mem_cons_of_mem q h)) hlen
    · obtain ⟨b, hbq⟩ := hb q (List.mem_cons_self q rest)
      have hr : tryFindOrOpen q s = (ERROR_SUCCESS, some s.includedFiles.length,
          maybeTrace q s.includedFiles.length (appendFile q b (logCall q s))) := by
        simp [tryFindOrOpen, hfq, hl, hcap, hbq]
      rw [resolveSeq_cons, hr]
      dsimp only
      unfold expectedCodes
      rw [if_neg hcap]
      congr 1
      have hq_notin : q ∉ rest := (List.nodup_cons.mp hnd).1
      have hlen2 : (maybeTrace q s.includedFiles.length
          (appendFile q b (logCall q s))).includedFiles.length
          = s.includedFiles.length + 1 := by
        simp
      rw [show s.includedFiles.length + 1
        = (maybeTrace q s.includedFiles.length
            (appendFile q b (logCall q s))).includedFiles.length from hlen2.symm]
      apply ih _ load (by simpa using hl)
        (fun q' h => hb q' (List.mem_cons_of_mem q h)) (List.nodup_cons.mp hnd).2
      · intro q' hq'
        simp only [maybeTrace_includedFiles, appendFile_includedFiles, logCall_includedFiles]
        refine findMatchIdx_append_miss _ _ _ (hun q' (List.mem_cons_of_mem q hq')) ?_
        have : q ≠ q' := fun he => hq_notin (he ▸ hq')
        simp only [fileNameIs, beq_eq_false_iff_ne, ne_eq]
        exact this
      · rw [hlen2]
        omega

/-- C2 counterexample: starting from a fresh adapter (primary source already
registered as entry 0) with a resolver that succeeds on every path, the
1000th distinct previously-unseen path — index 999 of a run of 1000 distinct
fresh paths — already fails with `ERROR_OUT_OF_STRUCTURES`, because entry 0
leaves only 999 free slots; the claim instead asserts the first 1000 all
succeed. -/
theorem c2_thousandth_path_fails :
    ((List.range MaxIncludedFiles).map (fun n => ([110, n] : WStr))).length
      = MaxIncludedFiles
    ∧ ((List.range MaxIncludedFiles).map (fun n => ([110, n] : WStr))).Nodup
    ∧ (resolveSeq ((List.range MaxIncludedFiles).map (fun n => ([110, n] : WStr)))
        (freshState [109] [65] (some fun _ => LoadResult.blob [66]))).1.get? 999
      = some ERROR_OUT_OF_STRUCTURES
    ∧ ERROR_OUT_OF_STRUCTURES ≠ ERROR_SUCCESS := by
  have hnd : ((List.range MaxIncludedFiles).map (fun n => ([110, n] : WStr))).Nodup := by
    refine List.Nodup.map ?_ (List.nodup_range _)
    intro a b h
    simpa using h
  have hlen : ((List.range MaxIncludedFiles).map (fun n => ([110, n] : WStr))).length
      = MaxIncludedFiles := by
    simp
  refine ⟨hlen, hnd, ?_, by decide⟩
  have hfresh : (freshState [109] [65]
      (some fun _ => LoadResult.blob [66])).includedFiles.length = 1 := rfl
  have hcodes := resolveSeq_codes
    ((List.range MaxIncludedFiles).map (fun n => ([110, n] : WStr)))
    (freshState [109] [65] (some fun _ => LoadResult.blob [66]))
    (fun _ => LoadResult.blob [66]) rfl (fun q _ => ⟨[66], rfl⟩) hnd ?_ ?_
  · rw [hcodes, hfresh]
    rw [expectedCodes_get _ 1 (by decide) 999 (by rw [hlen]; decide)]
    rw [if_neg (by decide)]
  · intro q hq
    simp only [List.mem_map, List.mem_range] at hq
    obtain ⟨n, -, rfl⟩ := hq
    rfl
  · rw [hfresh]
    decide

/-- C2 (amended): starting from a freshly constructed adapter (primary source
already registered as entry 0) with a resolver that succeeds on every path,
resolving distinct previously-unseen paths succeeds for the first 999 such
paths and fails with `ERROR_OUT_OF_STRUCTURES` from the 1000th distinct
unseen path on (the primary source occupies one of the 1000 registry slots),
never earlier and never later. -/
theorem c2_capacity_bound :
    ∀ (prim : WStr) (srcBytes : List Nat) (load : WStr → LoadResult)
      (qs : List WStr),
      (∀ q, ∃ b, load q = .blob b) →
      qs.Nodup →
      (∀ q ∈ qs, q ≠ MakeAbsoluteOrCurDirRelativeW prim) →
      ∀ i, i < qs.length →
        (resolveSeq qs (freshState prim srcBytes (some load))).1.get? i
          = some (if i < MaxIncludedFiles - 1 then ERROR_SUCCESS
                  else ERROR_OUT_OF_STRUCTURES) := by
  intro prim srcBytes load qs hb hnd hne i hi
  have hfl : (freshState prim srcBytes (some load)).includedFiles.length = 1 := rfl
  have hcodes := resolveSeq_codes qs (freshState prim srcBytes (some load)) load rfl
      (fun q _ => hb q) hnd ?_ (by rw [hfl]; decide)
  · rw [hcodes, hfl, expectedCodes_get qs 1 (by decide) i hi]
    have hM : MaxIncludedFiles = 1000 := rfl
    rw [hM]
    by_cases hI : 1 + i < 1000
    · rw [if_pos hI, if_pos (by omega)]
    · rw [if_neg hI, if_neg (by omega)]
  · intro q hq
    have hpred : fileNameIs q ⟨MakeAbsoluteOrCurDirRelativeW prim, srcBytes⟩ = false := by
      simp only [fileNameIs, beq_eq_false_iff_ne, ne_eq]
      exact fun he => hne q hq he.symm
    simp [freshState, findMatchIdx, hpred]

/-- C2 witness: one fresh path against a one-entry fresh registry resolves
successfully. -/
theorem c2_capacity_bound_witness :
    (resolveSeq [[110, 0]]
        (freshState [109] [65] (some fun _ => LoadResult.blob [66]))).1.get? 0
      = some ERROR_SUCCESS := by
  have h := c2_capacity_bound [109] [65] (fun _ => LoadResult.blob [66]) [[110, 0]]
    (fun _ => ⟨[66], rfl⟩) (by decide) (by decide) 0 (by decide)
  rw [if_pos (by decide)] at h
  exact h

/-! ## Reachable adapter states -/

theorem closeHandle_state (h : Nat) (s : FSState) : (closeHandle h s).2.2 = s := by
  unfold closeHandle
  split <;> rfl

theorem createFileW_state (p : WStr) (s : FSState) :
    (createFileW p s).2.2 = s
    ∨ (createFileW p s).2.2 = (tryFindOrOpen (MakeAbsoluteOrCurDirRelativeW p) s).2.2 := by
  by_cases ho : s.outputStreamName = some (MakeAbsoluteOrCurDirRelativeW p)
  · exact Or.inl (by simp [createFileW, ho])
  · by_cases hd : tryFindDirHandle (MakeAbsoluteOrCurDirRelativeW p) s = INVALID_HANDLE_VALUE
    · by_cases hr : (tryFindOrOpen (MakeAbsoluteOrCurDirRelativeW p) s).1 = ERROR_SUCCESS
      · exact Or.inr (by simp [createFileW, ho, hd, hr])
      · exact Or.inr (by simp [createFileW, ho, hd, hr])
    · exact Or.inl (by simp [createFileW, ho, hd])

theorem getFileAttributesW_state (p : WStr) (s : FSState) :
    (getFileAttributesW p s).2.2 = s
    ∨ (getFileAttributesW p s).2.2
        = (tryFindOrOpen (MakeAbsoluteOrCurDirRelativeW p) s).2.2 := by
  simp only [getFileAttributesW]
  split_ifs <;> first | exact Or.inl rfl | exact Or.inr rfl

/-- One adapter API call, as a transition between states.  The
`SetupForCompilerInstance` and `RegisterOutputStream` constructors carry their
`DXASSERT`ed preconditions (search entries not yet configured, no output
registered yet). -/
inductive Step : FSState → FSState → Prop where
  | createFile (p : WStr) (s : FSState) : Step s (createFileW p s).2.2
  | getAttrs (p : WStr) (s : FSState) : Step s (getFileAttributesW p s).2.2
  | setup (entries : List WStr) (s : FSState) (hpre : s.searchEntries = []) :
      Step s (setupForCompilerInstance entries s)
  | registerOut (name : WStr) (sink : List Nat) (s : FSState)
      (hpre : s.outputBuf = none) : Step s (registerOutputStream name sink s)
  | close (hObj : Nat) (s : FSState) : Step s (closeHandle hObj s).2.2
  | del (p : WStr) (s : FSState) : Step s (deleteFileW p s).2.2
  | removeDir (p : WStr) (s : FSState) : Step s (removeDirectoryW p s).2.2
  | createDir (p : WStr) (s : FSState) : Step s (createDirectoryW p s).2.2
  | move (a b : WStr) (fl : Nat) (s : FSState) : Step s (moveFileExW a b fl s).2.2
  | hardLink (a b : WStr) (s : FSState) : Step s (createHardLinkW a b s).2.2
  | symLink (a b : WStr) (fl : Nat) (s : FSState) :
      Step s (createSymbolicLinkW a b fl s).2.2
  | setTime (hFile : Nat) (s : FSState) : Step s (setFileTime hFile s).2.2
  | resizeF (p : WStr) (sz : Nat) (s : FSState) : Step s (resize_file p sz s).2.2
  | mapping (hFile a b c : Nat) (s : FSState) :
      Step s (createFileMappingW hFile a b c s).2.2
  | mapView (hMap a b c d : Nat) (s : FSState) :
      Step s (mapViewOfFile hMap a b c d s).2.2
  | unmapView (addr : Nat) (s : FSState) : Step s (unmapViewOfFile addr s).2.2

/-- Effect summary of any single step: both lists only grow by appending, and
both capacity bounds are preserved. -/
theorem Step_effects {s s' : FSState} (h : Step s s') :
    (∃ t, s'.includedFiles = s.includedFiles ++ t)
    ∧ (∃ u, s'.searchEntries = s.searchEntries ++ u)
    ∧ (s.includedFiles.length ≤ MaxIncludedFiles →
        s'.includedFiles.length ≤ MaxIncludedFiles)
    ∧ (s.searchEntries.length ≤ MaxIncludedFiles →
        s'.searchEntries.length ≤ MaxIncludedFiles) := by
  have hid : ∀ z : FSState, (∃ t, z.includedFiles = z.includedFiles ++ t)
      ∧ (∃ u, z.searchEntries = z.searchEntries ++ u)
      ∧ (z.includedFiles.length ≤ MaxIncludedFiles →
          z.includedFiles.length ≤ MaxIncludedFiles)
      ∧ (z.searchEntries.length ≤ MaxIncludedFiles →
          z.searchEntries.length ≤ MaxIncludedFiles) :=
    fun z => ⟨⟨[], by simp⟩, ⟨[], by simp⟩, fun hz => hz, fun hz => hz⟩
  have hopen : ∀ (p : WStr) (z : FSState),
      (∃ t, (tryFindOrOpen p z).2.2.includedFiles = z.includedFiles ++ t)
      ∧ (∃ u, (tryFindOrOpen p z).2.2.searchEntries = z.searchEntries ++ u)
      ∧ (z.includedFiles.length ≤ MaxIncludedFiles →
          (tryFindOrOpen p z).2.2.includedFiles.length ≤ MaxIncludedFiles)
      ∧ (z.searchEntries.length ≤ MaxIncludedFiles →
          (tryFindOrOpen p z).2.2.searchEntries.length ≤ MaxIncludedFiles) := by
    intro p z
    obtain ⟨t, ht, -, -⟩ := tryFindOrOpen_growth p z
    have hse := (tryFindOrOpen_preserves p z).2.1
    exact ⟨⟨t, ht⟩, ⟨[], by simp [hse]⟩, tryFindOrOpen_length_le p z,
      fun hz => by rw [hse]; exact hz⟩
  cases h with
  | createFile p s =>
    rcases createFileW_state p s with he | he <;> rw [he]
    · exact hid s
    · exact hopen _ s
  | getAttrs p s =>
    rcases getFileAttributesW_state p s with he | he <;> rw [he]
    · exact hid s
    · exact hopen _ s
  | setup entries s hpre =>
    unfold setupForCompilerInstance
    by_cases hlen : entries.length > MaxIncludedFiles
    · rw [if_pos hlen]
      exact hid s
    · rw [if_neg hlen]
      refine ⟨⟨[], by simp⟩, ⟨entries.map MakeAbsoluteOrCurDirRelativeW, rfl⟩,
        fun hz => hz, ?_⟩
      intro _
      have hle : entries.length ≤ MaxIncludedFiles := Nat.le_of_not_lt hlen
      simp [hpre, hle]
  | registerOut name sink s hpre => exact hid s
  | close hObj s =>
    rw [closeHandle_state]
    exact hid s
  | del p s => exact hid s
  | removeDir p s => exact hid s
  | createDir p s => exact hid s
  | move a b fl s => exact hid s
  | hardLink a b s => exact hid s
  | symLink a b fl s => exact hid s
  | setTime hFile s => exact hid s
  | resizeF p sz s => exact hid s
  | mapping hFile a b c s => exact hid s
  | mapView hMap a b c d s => exact hid s
  | unmapView addr s => exact hid s

/-- Multi-step growth: over any number of steps the two lists only grow. -/
theorem reach_growth {s s' : FSState} (h : Relation.ReflTransGen Step s s') :
    (∃ t, s'.includedFiles = s.includedFiles ++ t)
    ∧ (∃ u, s'.searchEntries = s.searchEntries ++ u) := by
  induction h with
  | refl => exact ⟨⟨[], by simp⟩, ⟨[], by simp⟩⟩
  | tail hsteps hstep ih =>
    obtain ⟨⟨t₁, ht₁⟩, ⟨u₁, hu₁⟩⟩ := ih
    obtain ⟨⟨t₂, ht₂⟩, ⟨u₂, hu₂⟩, -, -⟩ := Step_effects hstep
    exact ⟨⟨t₁ ++ t₂, by rw [ht₂, ht₁, List.append_assoc]⟩,
      ⟨u₁ ++ u₂, by rw [hu₂, hu₁, List.append_assoc]⟩⟩

theorem head?_append_left {α : Type} {l : List α} {a : α} (t : List α)
    (h : l.head? = some a) : (l ++ t).head? = some a := by
  cases l with
  | nil => cases h
  | cons x xs => exact h

/-- States reachable by API calls from a freshly constructed adapter. -/
def Reachable (prim : WStr) (srcBytes : List Nat)
    (ld : Option (WStr → LoadResult)) (s : FSState) : Prop :=
  Relation.ReflTransGen Step (freshState prim srcBytes ld) s

/-- C9: in every reachable adapter state the included-file registry and the
search-path list hold at most 1000 entries each, entry 0 of the registry is
always the primary source installed at construction, and both lists only grow
by appending — so any index valid in a state stays valid, denoting the same
entry, in every later state. -/
theorem c9_registry_invariants :
    ∀ (prim : WStr) (srcBytes : List Nat) (ld : Option (WStr → LoadResult))
      (s : FSState), Reachable prim srcBytes ld s →
      s.includedFiles.length ≤ MaxIncludedFiles
      ∧ s.searchEntries.length ≤ MaxIncludedFiles
      ∧ s.includedFiles.head? = some ⟨MakeAbsoluteOrCurDirRelativeW prim, srcBytes⟩
      ∧ ∀ s', Relation.ReflTransGen Step s s' →
          (∃ t, s'.includedFiles = s.includedFiles ++ t)
          ∧ (∃ u, s'.searchEntries = s.searchEntries ++ u)
          ∧ ∀ i, i < s.includedFiles.length →
              s'.includedFiles.get? i = s.includedFiles.get? i := by
  intro prim srcBytes ld s hreach
  have hinv : s.includedFiles.length ≤ MaxIncludedFiles
      ∧ s.searchEntries.length ≤ MaxIncludedFiles
      ∧ s.includedFiles.head? = some ⟨MakeAbsoluteOrCurDirRelativeW prim, srcBytes⟩ := by
    induction hreach with
    | refl =>
      refine ⟨?_, ?_, rfl⟩
      · show (1 : Nat) ≤ MaxIncludedFiles
        decide
      · show (0 : Nat) ≤ MaxIncludedFiles
        decide
    | tail hsteps hstep ih =>
      obtain ⟨h1, h2, h3⟩ := ih
      obtain ⟨⟨t, ht⟩, -, h4, h5⟩ := Step_effects hstep
      exact ⟨h4 h1, h5 h2, by rw [ht]; exact head?_append_left t h3⟩
  refine ⟨hinv.1, hinv.2.1, hinv.2.2, ?_⟩
  intro s' hfwd
  obtain ⟨⟨t, ht⟩, hu⟩ := reach_growth hfwd
  refine ⟨⟨t, ht⟩, hu, ?_⟩
  intro i hi
  rw [ht]
  exact List.get?_append hi

/-- C9 witness: the freshly constructed adapter itself is reachable and
satisfies the invariants. -/
theorem c9_registry_invariants_witness :
    (freshState [109] [65] none).includedFiles.length ≤ MaxIncludedFiles
    ∧ (freshState [109] [65] none).searchEntries.length ≤ MaxIncludedFiles
    ∧ (freshState [109] [65] none).includedFiles.head?
        = some ⟨MakeAbsoluteOrCurDirRelativeW [109], [65]⟩
    ∧ ∀ s', Relation.ReflTransGen Step (freshState [109] [65] none) s' →
        (∃ t, s'.includedFiles = (freshState [109] [65] none).includedFiles ++ t)
        ∧ (∃ u, s'.searchEntries = (freshState [109] [65] none).searchEntries ++ u)
        ∧ ∀ i, i < (freshState [109] [65] none).includedFiles.length →
            s'.includedFiles.get? i
              = (freshState [109] [65] none).includedFiles.get? i :=
  c9_registry_invariants [109] [65] none (freshState [109] [65] none)
    Relation.ReflTransGen.refl

end DxcFS
